import Mathlib

/-!
# AveBlanca: the character-controller loop of `main.js`

A shallow embedding of the per-frame integration loop of
`src/aveblancafinal/main.js` (`animate`, `controls`, `updatePlayer`,
`playerCollisions`, `getForwardVector`, `getSideVector`) and the properties
of it that the specification states.

Numbers are the elements of a linear ordered field `α` (the idealised
arithmetic of the JavaScript doubles); the theorems that need the analytic
properties of `Math.exp` and `Math.sqrt` are stated over `ℝ` with `Real.exp`
and `Real.sqrt`.  The collaborators the script reaches through the engine
(`Math.exp`, `Math.sqrt`, `worldOctree.capsuleIntersect`) are the fields of
`World`; what the host sets between two frames (`keyStates`, the camera
orientation, `clock.getDelta()`) is a `Frame`.
-/

namespace AveBlanca

/-! ## The engine's vector and capsule primitives -/

/-- Modelled from the spec: `THREE.Vector3` of `./build/three.module.js`, which
is not among the sources; a triple of coordinates. -/
structure Vector3 (α : Type) where
  x : α
  y : α
  z : α
deriving DecidableEq, Repr

namespace Vector3

variable {α : Type} [LinearOrderedField α]

/-- Modelled from the spec: `Vector3.add` of the engine, `this += v`. -/
def add (a v : Vector3 α) : Vector3 α :=
  ⟨a.x + v.x, a.y + v.y, a.z + v.z⟩

/-- Modelled from the spec: `Vector3.sub` of the engine, `this -= v`. -/
def sub (a v : Vector3 α) : Vector3 α :=
  ⟨a.x - v.x, a.y - v.y, a.z - v.z⟩

/-- Modelled from the spec: `Vector3.multiplyScalar` of the engine,
`this *= s`. -/
def multiplyScalar (a : Vector3 α) (s : α) : Vector3 α :=
  ⟨a.x * s, a.y * s, a.z * s⟩

/-- Modelled from the spec: `Vector3.addScaledVector` of the engine,
`this += v * s`. -/
def addScaledVector (a v : Vector3 α) (s : α) : Vector3 α :=
  ⟨a.x + v.x * s, a.y + v.y * s, a.z + v.z * s⟩

/-- Modelled from the spec: `Vector3.dot` of the engine. -/
def dot (a v : Vector3 α) : α :=
  a.x * v.x + a.y * v.y + a.z * v.z

/-- Modelled from the spec: `Vector3.cross` of the engine, `this = this × v`
(the rotation of a horizontal vector by a quarter turn about `v` when `v` is
the up axis). -/
def cross (a v : Vector3 α) : Vector3 α :=
  ⟨a.y * v.z - a.z * v.y, a.z * v.x - a.x * v.z, a.x * v.y - a.y * v.x⟩

/-- Modelled from the spec: `Vector3.length` of the engine, over the square
root `sqrt` of the host. -/
def length (sqrt : α → α) (a : Vector3 α) : α :=
  sqrt (a.x * a.x + a.y * a.y + a.z * a.z)

/-- Modelled from the spec: `Vector3.divideScalar` of the engine,
`this *= 1 / s`. -/
def divideScalar (a : Vector3 α) (s : α) : Vector3 α :=
  a.multiplyScalar (1 / s)

/-- Modelled from the spec: `Vector3.normalize` of the engine,
`this.divideScalar( this.length() || 1 )`: a vector of length zero is left
as it is. -/
def normalize (sqrt : α → α) (a : Vector3 α) : Vector3 α :=
  a.divideScalar (if a.length sqrt = 0 then 1 else a.length sqrt)

end Vector3

/-- Modelled from the spec: `Capsule` of `./jsm/math/Capsule.js`, which is not
among the sources: the two end points of a segment and a radius (`end_` is the
engine's `end`). -/
structure Capsule (α : Type) where
  start : Vector3 α
  end_ : Vector3 α
  radius : α
deriving DecidableEq, Repr

/-- Modelled from the spec: `Capsule.translate` of the engine, which adds `v`
to both end points. -/
def Capsule.translate {α : Type} [LinearOrderedField α] (c : Capsule α)
    (v : Vector3 α) : Capsule α :=
  { c with start := c.start.add v, end_ := c.end_.add v }

/-- The contact record `worldOctree.capsuleIntersect` returns when the capsule
touches the scene: `{ normal, depth }`. -/
structure Contact (α : Type) where
  normal : Vector3 α
  depth : α
deriving DecidableEq, Repr

/-! ## Collaborators, inputs and state -/

/-- The collaborators of the loop: `Math.exp`, `Math.sqrt` and
`worldOctree.capsuleIntersect`, which returns `false` (here `none`) when
nothing is hit. -/
structure World (α : Type) where
  exp : α → α
  sqrt : α → α
  capsuleIntersect : Capsule α → Option (Contact α)

/-- The entries of `keyStates` that `controls` reads. -/
structure KeyStates where
  KeyW : Bool
  ArrowUp : Bool
  KeyS : Bool
  ArrowDown : Bool
  KeyA : Bool
  ArrowLeft : Bool
  KeyD : Bool
  ArrowRight : Bool
  Space : Bool
deriving DecidableEq, Repr

/-- What the host has set when `animate` runs: the key table, the direction
`camera.getWorldDirection` reports (it depends on the camera rotation only,
which the pointer events set) and the value of `clock.getDelta()`. -/
structure Frame (α : Type) where
  keyStates : KeyStates
  worldDirection : Vector3 α
  delta : α
deriving DecidableEq, Repr

/-- The mutable globals of the script that the loop reads and writes. -/
structure State (α : Type) where
  playerCollider : Capsule α
  playerVelocity : Vector3 α
  playerDirection : Vector3 α
  playerOnFloor : Bool
  cameraPosition : Vector3 α
deriving DecidableEq, Repr

section Program

variable {α : Type} [LinearOrderedField α]

/-- The constant `GRAVITY = 30` of the script. -/
def GRAVITY : α := 30

/-- The constant `STEPS_PER_FRAME = 5` of the script. -/
def STEPS_PER_FRAME : Nat := 5

/-- The vector `camera.up`: the engine's default up axis, which the script
never assigns. -/
def cameraUp : Vector3 α := ⟨0, 1, 0⟩

/-- The globals as the script initialises them. -/
def initialState : State α :=
  { playerCollider := ⟨⟨0, 0.2, 0⟩, ⟨0, 1.2, 0⟩, 0.2⟩
    playerVelocity := ⟨0, 0, 0⟩
    playerDirection := ⟨0, 0, 0⟩
    playerOnFloor := false
    cameraPosition := ⟨0, 0, 0⟩ }

/-- The function `playerCollisions()`: the grounded flag is cleared, and on a
contact it is set from the sign of `normal.y`, the velocity loses its
component along the normal when the flag is not set, and the capsule is moved
by `normal * depth`. -/
def playerCollisions (W : World α) (s : State α) : State α :=
  match W.capsuleIntersect s.playerCollider with
  | none => { s with playerOnFloor := false }
  | some result =>
    let onFloor : Bool := decide (result.normal.y > 0)
    let velocity :=
      if !onFloor then
        s.playerVelocity.addScaledVector result.normal
          (-(result.normal.dot s.playerVelocity))
      else s.playerVelocity
    { s with
      playerOnFloor := onFloor
      playerVelocity := velocity
      playerCollider :=
        s.playerCollider.translate (result.normal.multiplyScalar result.depth) }

/-- The first half of `updatePlayer( deltaTime )`, down to
`playerCollider.translate( deltaPosition )`: gravity, damping and the move of
the capsule. -/
def integratePlayer (W : World α) (deltaTime : α) (s : State α) : State α :=
  let damping := W.exp (-10 * deltaTime) - 1
  let velocity :=
    if !s.playerOnFloor then
      { s.playerVelocity with y := s.playerVelocity.y - GRAVITY * deltaTime }
    else s.playerVelocity
  let damping := if !s.playerOnFloor then damping * 0.1 else damping
  let velocity := velocity.addScaledVector velocity damping
  let deltaPosition := velocity.multiplyScalar deltaTime
  { s with
    playerVelocity := velocity
    playerCollider := s.playerCollider.translate deltaPosition }

/-- The function `updatePlayer( deltaTime )`: the integration above, then
`playerCollisions()` and `camera.position.copy( playerCollider.end )`. -/
def updatePlayer (W : World α) (deltaTime : α) (s : State α) : State α :=
  let s := integratePlayer W deltaTime s
  let s := playerCollisions W s
  { s with cameraPosition := s.playerCollider.end_ }

/-- The function `getForwardVector()`: writes the horizontal, normalised camera direction
to `playerDirection` (and returns that vector). -/
def getForwardVector (W : World α) (I : Frame α) (s : State α) : State α :=
  let d := I.worldDirection
  let d := { d with y := 0 }
  { s with playerDirection := d.normalize W.sqrt }

/-- The function `getSideVector()`: as `getForwardVector`, then crossed with `camera.up`. -/
def getSideVector (W : World α) (I : Frame α) (s : State α) : State α :=
  let d := I.worldDirection
  let d := { d with y := 0 }
  let d := d.normalize W.sqrt
  { s with playerDirection := d.cross cameraUp }

/-- The statement `playerVelocity.add( <direction>.multiplyScalar( k ) )` of
`controls`: the direction vector is `playerDirection` itself, scaled in
place, then added to the velocity. -/
def addScaledDirection (k : α) (s : State α) : State α :=
  let d := s.playerDirection.multiplyScalar k
  { s with playerDirection := d, playerVelocity := s.playerVelocity.add d }

/-- The function `controls( deltaTime )`.  The `Space` branch only asks for the pointer
lock and hides three page elements; it touches none of the globals of
`State`. -/
def controls (W : World α) (I : Frame α) (deltaTime : α) (s : State α) : State α :=
  let speedDelta := deltaTime * (if s.playerOnFloor then 25 else 8)
  let s := if I.keyStates.KeyW || I.keyStates.ArrowUp then
      addScaledDirection speedDelta (getForwardVector W I s) else s
  let s := if I.keyStates.KeyS || I.keyStates.ArrowDown then
      addScaledDirection (-speedDelta) (getForwardVector W I s) else s
  let s := if I.keyStates.KeyA || I.keyStates.ArrowLeft then
      addScaledDirection (-speedDelta) (getSideVector W I s) else s
  let s := if I.keyStates.KeyD || I.keyStates.ArrowRight then
      addScaledDirection speedDelta (getSideVector W I s) else s
  s

/-- The body of the loop of `animate`: `controls` then `updatePlayer`. -/
def subStep (W : World α) (I : Frame α) (deltaTime : α) (s : State α) : State α :=
  updatePlayer W deltaTime (controls W I deltaTime s)

/-- The `deltaTime` of `animate`:
`Math.min( 0.05, clock.getDelta() ) / STEPS_PER_FRAME`. -/
def frameDeltaTime (delta : α) : α :=
  min 0.05 delta / (STEPS_PER_FRAME : α)

/-- The physics of `animate()`: the loop over `i = 0 .. STEPS_PER_FRAME - 1`
(rendering and the request of the next frame do not touch the state). -/
def animate (W : World α) (I : Frame α) (s : State α) : State α :=
  let deltaTime := frameDeltaTime I.delta
  (List.range STEPS_PER_FRAME).foldl (fun s _ => subStep W I deltaTime s) s

/-- Successive frames: `animate` once for each entry of `frames`, in order. -/
def run (W : World α) (frames : List (Frame α)) (s : State α) : State α :=
  frames.foldl (fun s I => animate W I s) s

/-- The key table with nothing held. -/
def noKeys : KeyStates :=
  ⟨false, false, false, false, false, false, false, false, false⟩

/-- No movement action is held (`Space` may be). -/
def KeyStates.noMovement (k : KeyStates) : Bool :=
  !(k.KeyW || k.ArrowUp) && !(k.KeyS || k.ArrowDown) &&
    !(k.KeyA || k.ArrowLeft) && !(k.KeyD || k.ArrowRight)

/-- A scene with nothing in it: the collision query never reports a
contact. -/
def emptyWorld (exp sqrt : α → α) : World α :=
  ⟨exp, sqrt, fun _ => none⟩

/-- A scene that is a horizontal floor at height `h`: a capsule whose lower
sphere reaches below `h` is pushed straight up by the missing height. -/
def floorWorld (exp sqrt : α → α) (h : α) : World α :=
  ⟨exp, sqrt, fun c =>
    if c.start.y - c.radius < h then
      some ⟨⟨0, 1, 0⟩, h - (c.start.y - c.radius)⟩
    else none⟩

/-- A scene that is a vertical wall at `x = w` facing the negative `x` axis:
a capsule whose lower sphere reaches beyond `w` is pushed back along
`(-1, 0, 0)` by the excess. -/
def wallWorld (exp sqrt : α → α) (w : α) : World α :=
  ⟨exp, sqrt, fun c =>
    if w < c.start.x + c.radius then
      some ⟨⟨-1, 0, 0⟩, c.start.x + c.radius - w⟩
    else none⟩

/-- The velocity the specification gives for the integration step of a
sub-step (its step 3b): `v * exp(-10 dt)` on the floor, and off the floor
gravity subtracted from the vertical component first and the weakened damping
`1 + 0.1 * (exp(-10 dt) - 1)` applied to the whole vector. -/
def specIntegratedVelocity (W : World α) (dt : α) (onFloor : Bool)
    (v : Vector3 α) : Vector3 α :=
  if onFloor then v.multiplyScalar (W.exp (-10 * dt))
  else (v.sub ⟨0, 30 * dt, 0⟩).multiplyScalar (1 + 0.1 * (W.exp (-10 * dt) - 1))

end Program

/-! ## Collision resolution -/

section Collisions

variable {α : Type} [LinearOrderedField α]

/-- C7: when the collision query reports no contact, `playerCollisions` only
clears the grounded flag: the capsule and the velocity are what they were. -/
theorem playerCollisions_no_contact (W : World α) (s : State α)
    (h : W.capsuleIntersect s.playerCollider = none) :
    (playerCollisions W s).playerOnFloor = false ∧
    (playerCollisions W s).playerCollider = s.playerCollider ∧
    (playerCollisions W s).playerVelocity = s.playerVelocity ∧
    playerCollisions W s = { s with playerOnFloor := false } := by
  simp [playerCollisions, h]

/-- Witness of C7: the initial capsule in the empty scene, with the flag set
beforehand. -/
theorem playerCollisions_no_contact_witness :
    (emptyWorld id id : World ℚ).capsuleIntersect
        ({ (initialState : State ℚ) with playerOnFloor := true }).playerCollider = none ∧
    (playerCollisions (emptyWorld id id)
        { (initialState : State ℚ) with playerOnFloor := true }).playerOnFloor = false ∧
    (playerCollisions (emptyWorld id id)
        { (initialState : State ℚ) with playerOnFloor := true }).playerCollider
      = (initialState : State ℚ).playerCollider :=
  ⟨rfl,
   (playerCollisions_no_contact (emptyWorld id id)
      { (initialState : State ℚ) with playerOnFloor := true } rfl).1,
   (playerCollisions_no_contact (emptyWorld id id)
      { (initialState : State ℚ) with playerOnFloor := true } rfl).2.1⟩

/-- C1: on a flat contact, normal `(0, 1, 0)` and depth `d` (any `d`, so every
`d ≥ 0`), resolution moves both end points of the capsule by exactly
`(0, d, 0)` and sets the grounded flag (the radius and the velocity are
untouched). -/
theorem playerCollisions_flat_contact (W : World α) (s : State α) (d : α)
    (h : W.capsuleIntersect s.playerCollider = some ⟨⟨0, 1, 0⟩, d⟩) :
    (playerCollisions W s).playerCollider.start
      = s.playerCollider.start.add ⟨0, d, 0⟩ ∧
    (playerCollisions W s).playerCollider.end_
      = s.playerCollider.end_.add ⟨0, d, 0⟩ ∧
    (playerCollisions W s).playerCollider.radius = s.playerCollider.radius ∧
    (playerCollisions W s).playerOnFloor = true ∧
    (playerCollisions W s).playerVelocity = s.playerVelocity := by
  simp [playerCollisions, h, Capsule.translate, Vector3.multiplyScalar]

/-- Witness of C1: the initial capsule over a floor at height `1/2` is lifted
by `1/2`. -/
theorem playerCollisions_flat_contact_witness :
    (floorWorld id id (1 / 2) : World ℚ).capsuleIntersect
        (initialState : State ℚ).playerCollider = some ⟨⟨0, 1, 0⟩, 1 / 2⟩ ∧
    (playerCollisions (floorWorld id id (1 / 2)) (initialState : State ℚ)).playerCollider.start
      = (initialState : State ℚ).playerCollider.start.add ⟨0, 1 / 2, 0⟩ ∧
    (playerCollisions (floorWorld id id (1 / 2)) (initialState : State ℚ)).playerOnFloor
      = true :=
  have h : (floorWorld id id (1 / 2) : World ℚ).capsuleIntersect
      (initialState : State ℚ).playerCollider = some ⟨⟨0, 1, 0⟩, 1 / 2⟩ := by
    norm_num [floorWorld, initialState]
  ⟨h,
   (playerCollisions_flat_contact _ _ (1 / 2) h).1,
   (playerCollisions_flat_contact _ _ (1 / 2) h).2.2.2.1⟩

/-- C2: on a contact whose unit normal `n` has vertical component `≤ 0`,
resolution clears the grounded flag and removes the velocity component along
the normal: the new velocity is `v - n * dot(n, v)`, orthogonal to `n`. -/
theorem playerCollisions_wall_contact (W : World α) (s : State α) (c : Contact α)
    (h : W.capsuleIntersect s.playerCollider = some c)
    (hunit : c.normal.dot c.normal = 1) (hy : c.normal.y ≤ 0) :
    (playerCollisions W s).playerOnFloor = false ∧
    (playerCollisions W s).playerVelocity
      = s.playerVelocity.sub
          (c.normal.multiplyScalar (c.normal.dot s.playerVelocity)) ∧
    (playerCollisions W s).playerVelocity.dot c.normal = 0 := by
  have hy' : ¬ (0 < c.normal.y) := not_lt.mpr hy
  have hv : (playerCollisions W s).playerVelocity
      = s.playerVelocity.sub
          (c.normal.multiplyScalar (c.normal.dot s.playerVelocity)) := by
    simp [playerCollisions, h, hy', Vector3.addScaledVector, Vector3.sub,
      Vector3.multiplyScalar, sub_eq_add_neg]
  refine ⟨by simp [playerCollisions, h, hy'], hv, ?_⟩
  rw [hv]
  simp only [Vector3.dot, Vector3.sub, Vector3.multiplyScalar] at hunit ⊢
  linear_combination
    (-(c.normal.x * s.playerVelocity.x + c.normal.y * s.playerVelocity.y
        + c.normal.z * s.playerVelocity.z)) * hunit

/-- Witness of C2: the initial capsule, moving at `(3, -4, 5)`, one unit into
a wall at `x = -4/5` that faces the negative `x` axis. -/
theorem playerCollisions_wall_contact_witness :
    (wallWorld id id (-4 / 5) : World ℚ).capsuleIntersect
        ({ (initialState : State ℚ) with playerVelocity := ⟨3, -4, 5⟩ }).playerCollider
      = some ⟨⟨-1, 0, 0⟩, 1⟩ ∧
    (playerCollisions (wallWorld id id (-4 / 5))
        { (initialState : State ℚ) with playerVelocity := ⟨3, -4, 5⟩ }).playerOnFloor
      = false ∧
    (playerCollisions (wallWorld id id (-4 / 5))
        { (initialState : State ℚ) with playerVelocity := ⟨3, -4, 5⟩ }).playerVelocity
      = (⟨3, -4, 5⟩ : Vector3 ℚ).sub
          ((⟨-1, 0, 0⟩ : Vector3 ℚ).multiplyScalar
            ((⟨-1, 0, 0⟩ : Vector3 ℚ).dot ⟨3, -4, 5⟩)) :=
  have h : (wallWorld id id (-4 / 5) : World ℚ).capsuleIntersect
      ({ (initialState : State ℚ) with playerVelocity := ⟨3, -4, 5⟩ }).playerCollider
      = some ⟨⟨-1, 0, 0⟩, 1⟩ := by
    norm_num [wallWorld, initialState]
  ⟨h,
   (playerCollisions_wall_contact _ _ ⟨⟨-1, 0, 0⟩, 1⟩ h
      (by norm_num [Vector3.dot]) (by norm_num)).1,
   (playerCollisions_wall_contact _ _ ⟨⟨-1, 0, 0⟩, 1⟩ h
      (by norm_num [Vector3.dot]) (by norm_num)).2.1⟩

end Collisions

/-! ## Integration of gravity and damping -/

section Integration

variable {α : Type} [LinearOrderedField α]

/-- The integration half of `updatePlayer` computes the velocity of the
specification and moves the capsule by `dt` times it; the grounded flag and
the radius are not touched. -/
theorem integratePlayer_spec (W : World α) (dt : α) (s : State α) :
    (integratePlayer W dt s).playerVelocity
      = specIntegratedVelocity W dt s.playerOnFloor s.playerVelocity ∧
    (integratePlayer W dt s).playerCollider
      = s.playerCollider.translate
          ((specIntegratedVelocity W dt s.playerOnFloor
            s.playerVelocity).multiplyScalar dt) ∧
    (integratePlayer W dt s).playerOnFloor = s.playerOnFloor := by
  have hv : (integratePlayer W dt s).playerVelocity
      = specIntegratedVelocity W dt s.playerOnFloor s.playerVelocity := by
    cases hf : s.playerOnFloor
    · simp only [integratePlayer, specIntegratedVelocity, hf,
        Vector3.addScaledVector, Vector3.sub, Vector3.multiplyScalar, GRAVITY]
      simp only [Bool.not_false, if_true, Bool.false_eq_true, if_false,
        Vector3.mk.injEq]
      refine ⟨?_, ?_, ?_⟩ <;> ring
    · simp only [integratePlayer, specIntegratedVelocity, hf,
        Vector3.addScaledVector, Vector3.multiplyScalar]
      simp only [Bool.not_true, Bool.false_eq_true, if_false, if_true,
        Vector3.mk.injEq]
      refine ⟨?_, ?_, ?_⟩ <;> ring
  refine ⟨hv, ?_, rfl⟩
  rw [← hv]
  rfl

/-- C9: `updatePlayer` replaces the velocity `v` by `v * exp(-10 dt)` when the
grounded flag is set, and by
`(v - (0, 30 dt, 0)) * (1 + 0.1 (exp(-10 dt) - 1))` when it is not, moves the
capsule by `dt` times that velocity, and only then runs the collision query on
the moved capsule (after which the camera is put at the end point of the
capsule). -/
theorem updatePlayer_integration (W : World α) (dt : α) (s : State α) :
    (integratePlayer W dt s).playerVelocity
      = (if s.playerOnFloor then s.playerVelocity.multiplyScalar (W.exp (-10 * dt))
          else (s.playerVelocity.sub ⟨0, 30 * dt, 0⟩).multiplyScalar
            (1 + 0.1 * (W.exp (-10 * dt) - 1))) ∧
    (integratePlayer W dt s).playerCollider
      = s.playerCollider.translate
          ((integratePlayer W dt s).playerVelocity.multiplyScalar dt) ∧
    (integratePlayer W dt s).playerOnFloor = s.playerOnFloor ∧
    updatePlayer W dt s
      = { playerCollisions W (integratePlayer W dt s) with
          cameraPosition :=
            (playerCollisions W (integratePlayer W dt s)).playerCollider.end_ } := by
  obtain ⟨h1, h2, h3⟩ := integratePlayer_spec W dt s
  refine ⟨?_, ?_, h3, rfl⟩
  · rw [h1]
    rfl
  · rw [h2, h1]

end Integration

/-! ## The frame loop -/

section FrameLoop

variable {α : Type} [LinearOrderedField α]

/-- C8: one `animate` is exactly five sub-steps, each `controls` followed by
`updatePlayer`, all with the sub-step delta `min(0.05, T) / 5`; these deltas
sum to the clamped frame delta, which is `T` when `T ≤ 0.05` and `0.05`
otherwise. -/
theorem animate_substeps (W : World α) (I : Frame α) (s : State α) :
    STEPS_PER_FRAME = 5 ∧
    frameDeltaTime I.delta = min 0.05 I.delta / 5 ∧
    (∀ r : State α, subStep W I (min 0.05 I.delta / 5) r
        = updatePlayer W (min 0.05 I.delta / 5)
            (controls W I (min 0.05 I.delta / 5) r)) ∧
    animate W I s
      = subStep W I (min 0.05 I.delta / 5)
          (subStep W I (min 0.05 I.delta / 5)
            (subStep W I (min 0.05 I.delta / 5)
              (subStep W I (min 0.05 I.delta / 5)
                (subStep W I (min 0.05 I.delta / 5) s)))) ∧
    ((List.range STEPS_PER_FRAME).map
        (fun _ => frameDeltaTime I.delta)).sum = min 0.05 I.delta ∧
    (I.delta ≤ 0.05 →
      ((List.range STEPS_PER_FRAME).map
        (fun _ => frameDeltaTime I.delta)).sum = I.delta) ∧
    (0.05 < I.delta →
      ((List.range STEPS_PER_FRAME).map
        (fun _ => frameDeltaTime I.delta)).sum = 0.05) := by
  have hd : frameDeltaTime I.delta = min 0.05 I.delta / 5 := by
    simp [frameDeltaTime, STEPS_PER_FRAME]
  have hsum : ((List.range STEPS_PER_FRAME).map
      (fun _ => frameDeltaTime I.delta)).sum = min 0.05 I.delta := by
    rw [hd]
    simp [STEPS_PER_FRAME, List.range_succ]
    ring
  refine ⟨rfl, hd, fun _ => rfl, ?_, hsum, ?_, ?_⟩
  · simp only [animate, hd]
    rfl
  · intro h
    rw [hsum, min_eq_right h]
  · intro h
    rw [hsum, min_eq_left h.le]

/-- Witness of C8: a frame of `0.02` seconds in the empty scene. -/
theorem animate_substeps_witness :
    ((List.range STEPS_PER_FRAME).map
        (fun _ => frameDeltaTime (0.02 : ℚ))).sum = 0.02 :=
  (animate_substeps (emptyWorld id id) (⟨noKeys, ⟨0, 0, -1⟩, 0.02⟩ : Frame ℚ)
    initialState).2.2.2.2.2.1 (by norm_num)

/-- C4: a frame delta of `0.05` seconds or more (such as `1.0`) gives exactly
the state that a frame delta of `0.05` gives, since the delta is clamped to
`min(0.05, delta)` before it is divided into sub-steps. -/
theorem animate_clamp (W : World α) (I : Frame α) (s : State α) (T : α)
    (hT : 0.05 ≤ T) :
    animate W { I with delta := T } s = animate W { I with delta := 0.05 } s := by
  simp only [animate, frameDeltaTime, min_eq_left hT, min_self, subStep, controls,
    getForwardVector, getSideVector]

/-- Witness of C4: the frame delta `1.0`, forward held, from the initial
state over a floor at height `0`. -/
theorem animate_clamp_witness :
    animate (floorWorld id id 0)
        (⟨{ noKeys with KeyW := true }, ⟨0, 0, -1⟩, 1.0⟩ : Frame ℚ) initialState
      = animate (floorWorld id id 0)
        (⟨{ noKeys with KeyW := true }, ⟨0, 0, -1⟩, 0.05⟩ : Frame ℚ) initialState :=
  animate_clamp (floorWorld id id 0)
    (⟨{ noKeys with KeyW := true }, ⟨0, 0, -1⟩, 1.0⟩ : Frame ℚ) initialState 1.0
    (by norm_num)

end FrameLoop

/-! ## Frames of zero length -/

section ZeroDelta

variable {α : Type} [LinearOrderedField α]

/-- With a zero delta `controls` leaves the capsule, the velocity and the
grounded flag alone, whatever is held (it may rewrite `playerDirection`). -/
theorem controls_zero (W : World α) (I : Frame α) (s : State α) :
    (controls W I 0 s).playerCollider = s.playerCollider ∧
    (controls W I 0 s).playerVelocity = s.playerVelocity ∧
    (controls W I 0 s).playerOnFloor = s.playerOnFloor := by
  simp only [controls, addScaledDirection, getForwardVector, getSideVector,
    Vector3.add, Vector3.multiplyScalar]
  cases (I.keyStates.KeyW || I.keyStates.ArrowUp) <;>
  cases (I.keyStates.KeyS || I.keyStates.ArrowDown) <;>
  cases (I.keyStates.KeyA || I.keyStates.ArrowLeft) <;>
  cases (I.keyStates.KeyD || I.keyStates.ArrowRight) <;>
  simp

/-- What collision resolution does to the capsule, the velocity and the
grounded flag depends on the capsule and the velocity only. -/
theorem playerCollisions_congr (W : World α) (s r : State α)
    (hc : s.playerCollider = r.playerCollider)
    (hv : s.playerVelocity = r.playerVelocity) :
    (playerCollisions W s).playerCollider = (playerCollisions W r).playerCollider ∧
    (playerCollisions W s).playerVelocity = (playerCollisions W r).playerVelocity ∧
    (playerCollisions W s).playerOnFloor = (playerCollisions W r).playerOnFloor := by
  simp only [playerCollisions, hc, hv]
  cases W.capsuleIntersect r.playerCollider <;> simp

/-- With a zero delta and `exp 0 = 1` the integration half of `updatePlayer`
changes nothing. -/
theorem integratePlayer_zero (W : World α) (hexp : W.exp 0 = 1) (s : State α) :
    integratePlayer W 0 s = s := by
  have hv : ∀ v : Vector3 α, ({ v with y := v.y } : Vector3 α) = v := fun _ => rfl
  have hs : ({ s with
      playerVelocity := s.playerVelocity
      playerCollider := s.playerCollider } : State α) = s := rfl
  simp [integratePlayer, hexp, Vector3.addScaledVector, Vector3.multiplyScalar,
    Capsule.translate, Vector3.add, hv, hs]

/-- With a zero delta and `exp 0 = 1`, `updatePlayer` integrates nothing: it
is collision resolution on the state it was given. -/
theorem updatePlayer_zero (W : World α) (hexp : W.exp 0 = 1) (s : State α) :
    (updatePlayer W 0 s).playerCollider = (playerCollisions W s).playerCollider ∧
    (updatePlayer W 0 s).playerVelocity = (playerCollisions W s).playerVelocity ∧
    (updatePlayer W 0 s).playerOnFloor = (playerCollisions W s).playerOnFloor := by
  simp [updatePlayer, integratePlayer_zero W hexp s]

/-- A sub-step of zero length is collision resolution, as far as the capsule,
the velocity and the grounded flag go. -/
theorem subStep_zero (W : World α) (hexp : W.exp 0 = 1) (I : Frame α)
    (s : State α) :
    (subStep W I 0 s).playerCollider = (playerCollisions W s).playerCollider ∧
    (subStep W I 0 s).playerVelocity = (playerCollisions W s).playerVelocity ∧
    (subStep W I 0 s).playerOnFloor = (playerCollisions W s).playerOnFloor := by
  obtain ⟨h1, h2, h3⟩ := updatePlayer_zero W hexp (controls W I 0 s)
  obtain ⟨c1, c2, _⟩ := controls_zero W I s
  obtain ⟨p1, p2, p3⟩ := playerCollisions_congr W (controls W I 0 s) s c1 c2
  exact ⟨h1.trans p1, h2.trans p2, h3.trans p3⟩

/-- The sub-step delta of a frame of zero length is zero. -/
theorem frameDeltaTime_zero : frameDeltaTime (0 : α) = 0 := by
  have h : min (0.05 : α) 0 = 0 := min_eq_right (by norm_num)
  simp [frameDeltaTime, h]

/-- When collision resolution leaves the capsule and the velocity of `s` as
they are, a sub-step of zero length from any state with that capsule and that
velocity keeps them. -/
theorem subStep_zero_fixed (W : World α) (hexp : W.exp 0 = 1) (I : Frame α)
    (s r : State α)
    (hfix : (playerCollisions W s).playerCollider = s.playerCollider ∧
      (playerCollisions W s).playerVelocity = s.playerVelocity)
    (hr : r.playerCollider = s.playerCollider ∧ r.playerVelocity = s.playerVelocity) :
    (subStep W I 0 r).playerCollider = s.playerCollider ∧
    (subStep W I 0 r).playerVelocity = s.playerVelocity := by
  obtain ⟨h1, h2, _⟩ := subStep_zero W hexp I r
  obtain ⟨p1, p2, _⟩ := playerCollisions_congr W r s hr.1 hr.2
  exact ⟨(h1.trans p1).trans hfix.1, (h2.trans p2).trans hfix.2⟩

/-- A capsule for which the collision query reports no contact is left where
it is by collision resolution, and so is the velocity. -/
theorem playerCollisions_fixed_of_free (W : World α) (s : State α)
    (h : W.capsuleIntersect s.playerCollider = none) :
    (playerCollisions W s).playerCollider = s.playerCollider ∧
    (playerCollisions W s).playerVelocity = s.playerVelocity := by
  simp [playerCollisions, h]

/-- A frame of zero length is five sub-steps of zero length. -/
theorem animate_zero_unfold (W : World α) (I : Frame α) (hI : I.delta = 0)
    (s : State α) :
    animate W I s
      = subStep W I 0 (subStep W I 0 (subStep W I 0 (subStep W I 0
          (subStep W I 0 s)))) := by
  simp only [animate, hI, frameDeltaTime_zero]
  rfl

/-- When collision resolution leaves the capsule and the velocity of `s` as
they are, a frame of zero length from any state with that capsule and that
velocity keeps them. -/
theorem animate_zero_fixed (W : World α) (hexp : W.exp 0 = 1) (I : Frame α)
    (hI : I.delta = 0) (s r : State α)
    (hfix : (playerCollisions W s).playerCollider = s.playerCollider ∧
      (playerCollisions W s).playerVelocity = s.playerVelocity)
    (hr : r.playerCollider = s.playerCollider ∧ r.playerVelocity = s.playerVelocity) :
    (animate W I r).playerCollider = s.playerCollider ∧
    (animate W I r).playerVelocity = s.playerVelocity := by
  have step := fun t ht => subStep_zero_fixed W hexp I s t hfix ht
  rw [animate_zero_unfold W I hI r]
  exact step _ (step _ (step _ (step _ (step _ hr))))

/-- When collision resolution leaves the capsule and the velocity of `s` as
they are, any number of frames of zero length keep them. -/
theorem run_zero_fixed (W : World α) (hexp : W.exp 0 = 1) (s : State α)
    (hfix : (playerCollisions W s).playerCollider = s.playerCollider ∧
      (playerCollisions W s).playerVelocity = s.playerVelocity) :
    ∀ (frames : List (Frame α)) (r : State α), (∀ I ∈ frames, I.delta = 0) →
      r.playerCollider = s.playerCollider ∧ r.playerVelocity = s.playerVelocity →
      (run W frames r).playerCollider = s.playerCollider ∧
      (run W frames r).playerVelocity = s.playerVelocity := by
  intro frames
  induction frames with
  | nil => intro r _ hr; exact hr
  | cons I fs ih =>
    intro r hfs hr
    have hI : I.delta = 0 := hfs I (List.mem_cons_self _ _)
    exact ih (animate W I r) (fun J hJ => hfs J (List.mem_cons_of_mem _ hJ))
      (animate_zero_fixed W hexp I hI s r hfix hr)

/-- C3, as amended: frames of zero length integrate nothing, each of their
sub-steps is collision resolution alone; so from a state whose capsule and
velocity collision resolution leaves as they are, in particular from a
capsule for which the collision query reports no contact, any number of such
frames, whatever is held in each, leave the capsule and the velocity
unchanged. -/
theorem advance_zero_idempotent (W : World α) (hexp : W.exp 0 = 1)
    (frames : List (Frame α)) (s : State α)
    (hz : ∀ I ∈ frames, I.delta = 0) :
    ((playerCollisions W s).playerCollider = s.playerCollider ∧
        (playerCollisions W s).playerVelocity = s.playerVelocity →
      (run W frames s).playerCollider = s.playerCollider ∧
      (run W frames s).playerVelocity = s.playerVelocity) ∧
    (W.capsuleIntersect s.playerCollider = none →
      (run W frames s).playerCollider = s.playerCollider ∧
      (run W frames s).playerVelocity = s.playerVelocity) ∧
    ∀ (I : Frame α) (r : State α),
      (subStep W I 0 r).playerCollider = (playerCollisions W r).playerCollider ∧
      (subStep W I 0 r).playerVelocity = (playerCollisions W r).playerVelocity ∧
      (subStep W I 0 r).playerOnFloor = (playerCollisions W r).playerOnFloor :=
  ⟨fun hfix => run_zero_fixed W hexp s hfix frames s hz ⟨rfl, rfl⟩,
   fun hfree => run_zero_fixed W hexp s (playerCollisions_fixed_of_free W s hfree)
      frames s hz ⟨rfl, rfl⟩,
   fun I r => subStep_zero W hexp I r⟩

/-- Witness of C3, as amended: two frames of zero length with forward held,
the initial capsule moving at `(1, 2, 3)` above a floor at height `0`. -/
theorem advance_zero_idempotent_witness :
    (run (floorWorld Real.exp Real.sqrt 0)
        [⟨{ noKeys with KeyW := true }, ⟨0, 0, -1⟩, 0⟩,
         ⟨{ noKeys with KeyW := true }, ⟨0, 0, -1⟩, 0⟩]
        { (initialState : State ℝ) with playerVelocity := ⟨1, 2, 3⟩ }).playerCollider
      = (initialState : State ℝ).playerCollider ∧
    (run (floorWorld Real.exp Real.sqrt 0)
        [⟨{ noKeys with KeyW := true }, ⟨0, 0, -1⟩, 0⟩,
         ⟨{ noKeys with KeyW := true }, ⟨0, 0, -1⟩, 0⟩]
        { (initialState : State ℝ) with playerVelocity := ⟨1, 2, 3⟩ }).playerVelocity
      = ⟨1, 2, 3⟩ :=
  (advance_zero_idempotent (floorWorld Real.exp Real.sqrt 0) Real.exp_zero
    [⟨{ noKeys with KeyW := true }, ⟨0, 0, -1⟩, 0⟩,
     ⟨{ noKeys with KeyW := true }, ⟨0, 0, -1⟩, 0⟩]
    { (initialState : State ℝ) with playerVelocity := ⟨1, 2, 3⟩ }
    (by simp)).2.1 (by norm_num [floorWorld, initialState])

/-- C3 as stated fails: with the floor at height `1/2` the initial capsule is
in contact, and one frame of zero length with nothing held lifts it by
`1/2`. -/
theorem advance_zero_counterexample :
    (animate (floorWorld Real.exp Real.sqrt (1 / 2)) ⟨noKeys, ⟨0, 0, -1⟩, 0⟩
        (initialState : State ℝ)).playerCollider
      = ⟨⟨0, 0.7, 0⟩, ⟨0, 1.7, 0⟩, 0.2⟩ ∧
    (animate (floorWorld Real.exp Real.sqrt (1 / 2)) ⟨noKeys, ⟨0, 0, -1⟩, 0⟩
        (initialState : State ℝ)).playerCollider
      ≠ (initialState : State ℝ).playerCollider := by
  have hexp : (floorWorld Real.exp Real.sqrt (1 / 2)).exp 0 = 1 := Real.exp_zero
  have first : (subStep (floorWorld Real.exp Real.sqrt (1 / 2))
      ⟨noKeys, ⟨0, 0, -1⟩, 0⟩ 0 (initialState : State ℝ)).playerCollider
      = ⟨⟨0, 0.7, 0⟩, ⟨0, 1.7, 0⟩, 0.2⟩ := by
    rw [(subStep_zero _ hexp _ _).1]
    norm_num [playerCollisions, floorWorld, initialState, Capsule.translate,
      Vector3.add, Vector3.multiplyScalar]
  have next : ∀ r : State ℝ, r.playerCollider = ⟨⟨0, 0.7, 0⟩, ⟨0, 1.7, 0⟩, 0.2⟩ →
      (subStep (floorWorld Real.exp Real.sqrt (1 / 2))
        ⟨noKeys, ⟨0, 0, -1⟩, 0⟩ 0 r).playerCollider
        = ⟨⟨0, 0.7, 0⟩, ⟨0, 1.7, 0⟩, 0.2⟩ := by
    intro r hr
    rw [(subStep_zero _ hexp _ r).1]
    have hnone : (floorWorld Real.exp Real.sqrt (1 / 2)).capsuleIntersect
        r.playerCollider = none := by
      rw [hr]
      norm_num [floorWorld]
    rw [(playerCollisions_fixed_of_free _ r hnone).1, hr]
  have hres := next _ (next _ (next _ (next _ first)))
  rw [← animate_zero_unfold _ ⟨noKeys, ⟨0, 0, -1⟩, 0⟩ rfl] at hres
  refine ⟨hres, ?_⟩
  rw [hres]
  norm_num [initialState]

end ZeroDelta

/-! ## Control acceleration -/

section Controls

/-- The vector `getForwardVector` computes when the camera direction has a
horizontal part: that part divided by its length. -/
theorem forward_normalize (W : World ℝ) (hsqrt : W.sqrt = Real.sqrt)
    (d : Vector3 ℝ) (hd : d.x ≠ 0 ∨ d.z ≠ 0) :
    ({ d with y := 0 } : Vector3 ℝ).normalize W.sqrt
      = ⟨d.x / Real.sqrt (d.x ^ 2 + d.z ^ 2), 0,
          d.z / Real.sqrt (d.x ^ 2 + d.z ^ 2)⟩ := by
  have hpos : 0 < d.x ^ 2 + d.z ^ 2 := by
    rcases hd with h | h
    · have := pow_pos (abs_pos.mpr h) 2
      rw [sq_abs] at this
      nlinarith [sq_nonneg d.z]
    · have := pow_pos (abs_pos.mpr h) 2
      rw [sq_abs] at this
      nlinarith [sq_nonneg d.x]
  have hlen : Real.sqrt (d.x ^ 2 + d.z ^ 2) ≠ 0 := (Real.sqrt_pos.mpr hpos).ne.symm
  have e : d.x * d.x + 0 * 0 + d.z * d.z = d.x ^ 2 + d.z ^ 2 := by ring
  simp only [Vector3.normalize, Vector3.divideScalar, Vector3.length,
    Vector3.multiplyScalar, hsqrt, e, if_neg hlen, Vector3.mk.injEq]
  refine ⟨?_, ?_, ?_⟩ <;> field_simp

/-- C10: when the camera direction has a horizontal part, with `f` that part
normalised, `side = (-f.z, 0, f.x) = f × up` (horizontal, of length one,
orthogonal to `f`) and `k = dt * 25` on the floor, `dt * 8` in the air,
`controls` adds to the velocity `k f` for forward, `-k f` for back,
`-k side` for strafe-left and `k side` for strafe-right, each when held; with
no movement action held the velocity is unchanged. -/
theorem controls_acceleration (W : World ℝ) (hsqrt : W.sqrt = Real.sqrt)
    (I : Frame ℝ) (dt : ℝ) (s : State ℝ)
    (hdir : I.worldDirection.x ≠ 0 ∨ I.worldDirection.z ≠ 0) :
    ∃ (f side : Vector3 ℝ) (k : ℝ),
      f = ⟨I.worldDirection.x
            / Real.sqrt (I.worldDirection.x ^ 2 + I.worldDirection.z ^ 2), 0,
          I.worldDirection.z
            / Real.sqrt (I.worldDirection.x ^ 2 + I.worldDirection.z ^ 2)⟩ ∧
      side = ⟨-f.z, 0, f.x⟩ ∧ side = f.cross cameraUp ∧
      f.dot f = 1 ∧ side.dot side = 1 ∧ f.dot side = 0 ∧
      k = dt * (if s.playerOnFloor then 25 else 8) ∧
      (controls W I dt s).playerVelocity =
        (((s.playerVelocity.add
            (if I.keyStates.KeyW || I.keyStates.ArrowUp
              then f.multiplyScalar k else ⟨0, 0, 0⟩)).add
            (if I.keyStates.KeyS || I.keyStates.ArrowDown
              then f.multiplyScalar (-k) else ⟨0, 0, 0⟩)).add
            (if I.keyStates.KeyA || I.keyStates.ArrowLeft
              then side.multiplyScalar (-k) else ⟨0, 0, 0⟩)).add
            (if I.keyStates.KeyD || I.keyStates.ArrowRight
              then side.multiplyScalar k else ⟨0, 0, 0⟩) ∧
      (I.keyStates.noMovement = true →
        (controls W I dt s).playerVelocity = s.playerVelocity) := by
  have hpos : 0 < I.worldDirection.x ^ 2 + I.worldDirection.z ^ 2 := by
    rcases hdir with h | h
    · have := pow_pos (abs_pos.mpr h) 2
      rw [sq_abs] at this
      nlinarith [sq_nonneg I.worldDirection.z]
    · have := pow_pos (abs_pos.mpr h) 2
      rw [sq_abs] at this
      nlinarith [sq_nonneg I.worldDirection.x]
  have hlen : Real.sqrt (I.worldDirection.x ^ 2 + I.worldDirection.z ^ 2) ≠ 0 :=
    (Real.sqrt_pos.mpr hpos).ne.symm
  have hsq : Real.sqrt (I.worldDirection.x ^ 2 + I.worldDirection.z ^ 2) ^ 2
      = I.worldDirection.x ^ 2 + I.worldDirection.z ^ 2 := Real.sq_sqrt hpos.le
  have hf := forward_normalize W hsqrt I.worldDirection hdir
  have unit : (I.worldDirection.x
        / Real.sqrt (I.worldDirection.x ^ 2 + I.worldDirection.z ^ 2)) ^ 2
      + (I.worldDirection.z
        / Real.sqrt (I.worldDirection.x ^ 2 + I.worldDirection.z ^ 2)) ^ 2 = 1 := by
    rw [div_pow, div_pow, hsq]
    field_simp
  refine ⟨_, _, _, rfl, rfl, ?_, ?_, ?_, ?_, rfl, ?_, ?_⟩
  · simp [Vector3.cross, cameraUp]
  · simp only [Vector3.dot]
    linear_combination unit
  · simp only [Vector3.dot]
    linear_combination unit
  · simp only [Vector3.dot]
    ring
  · simp only [controls, addScaledDirection, getForwardVector, getSideVector, hf,
      Vector3.cross, cameraUp]
    cases (I.keyStates.KeyW || I.keyStates.ArrowUp) <;>
    cases (I.keyStates.KeyS || I.keyStates.ArrowDown) <;>
    cases (I.keyStates.KeyA || I.keyStates.ArrowLeft) <;>
    cases (I.keyStates.KeyD || I.keyStates.ArrowRight) <;>
    simp [Vector3.add, Vector3.multiplyScalar]
  · intro hno
    simp only [KeyStates.noMovement, Bool.and_eq_true, Bool.not_eq_true'] at hno
    obtain ⟨⟨⟨h1, h2⟩, h3⟩, h4⟩ := hno
    simp [controls, h1, h2, h3, h4]

/-- Witness of C10: forward held in the air, the camera looking along
`(3, -2, 4)`, a sub-step of `0.01` seconds from rest. -/
theorem controls_acceleration_witness :
    ∃ f : Vector3 ℝ,
      f = ⟨3 / Real.sqrt (3 ^ 2 + 4 ^ 2), 0, 4 / Real.sqrt (3 ^ 2 + 4 ^ 2)⟩ ∧
      f.dot f = 1 ∧
      (controls (emptyWorld Real.exp Real.sqrt)
          ⟨{ noKeys with KeyW := true }, ⟨3, -2, 4⟩, 0.05⟩ 0.01
          (initialState : State ℝ)).playerVelocity
        = (initialState : State ℝ).playerVelocity.add
            (f.multiplyScalar (0.01 * 8)) := by
  obtain ⟨f, side, k, hf, _, _, hunit, _, _, hk, hv, _⟩ :=
    controls_acceleration (emptyWorld Real.exp Real.sqrt) rfl
      ⟨{ noKeys with KeyW := true }, ⟨3, -2, 4⟩, 0.05⟩ 0.01
      (initialState : State ℝ) (Or.inl (by norm_num))
  refine ⟨f, hf, hunit, ?_⟩
  rw [hv, hk]
  simp [noKeys, initialState, Vector3.add]

end Controls

/-! ## Free flight: no movement action held, no contact -/

section FreeFlight

variable {α : Type} [LinearOrderedField α]

/-- With no movement action held `controls` does nothing. -/
theorem controls_noMovement (W : World α) (I : Frame α) (dt : α) (s : State α)
    (hk : I.keyStates.noMovement = true) : controls W I dt s = s := by
  simp only [KeyStates.noMovement, Bool.and_eq_true, Bool.not_eq_true'] at hk
  obtain ⟨⟨⟨h1, h2⟩, h3⟩, h4⟩ := hk
  simp [controls, h1, h2, h3, h4]

/-- A sub-step with no movement action held whose collision query reports no
contact leaves the velocity of the integration and clears the grounded
flag. -/
theorem subStep_free (W : World α) (I : Frame α) (dt : α) (s : State α)
    (hk : I.keyStates.noMovement = true)
    (hfree : W.capsuleIntersect (integratePlayer W dt s).playerCollider = none) :
    (subStep W I dt s).playerVelocity
      = specIntegratedVelocity W dt s.playerOnFloor s.playerVelocity ∧
    (subStep W I dt s).playerOnFloor = false := by
  have h1 := (integratePlayer_spec W dt s).1
  simp only [subStep, controls_noMovement W I dt s hk, updatePlayer,
    playerCollisions, hfree]
  exact ⟨h1, trivial⟩

/-- One `animate` is five sub-steps of length `frameDeltaTime`. -/
theorem animate_unfold (W : World α) (I : Frame α) (s : State α) :
    animate W I s
      = subStep W I (frameDeltaTime I.delta) (subStep W I (frameDeltaTime I.delta)
          (subStep W I (frameDeltaTime I.delta) (subStep W I (frameDeltaTime I.delta)
            (subStep W I (frameDeltaTime I.delta) s)))) := rfl

/-- The sub-step delta is not negative when the frame delta is not, and
positive when the frame delta is. -/
theorem frameDeltaTime_sign (T : α) :
    (0 ≤ T → 0 ≤ frameDeltaTime T) ∧ (0 < T → 0 < frameDeltaTime T) := by
  have h5 : (0 : α) < ((STEPS_PER_FRAME : Nat) : α) := by norm_num [STEPS_PER_FRAME]
  constructor
  · intro h
    exact div_nonneg (le_min (by norm_num) h) h5.le
  · intro h
    exact div_pos (lt_min (by norm_num) h) h5

end FreeFlight

section Decay

/-- The damping factor in the air, `1 + 0.1 (exp(-10 dt) - 1)`, lies between
`0.9` and `1`; it is below `1` when `dt > 0`, and at least `1 - dt`. -/
theorem air_factor_bounds (dt : ℝ) (hdt : 0 ≤ dt) :
    0.9 < 1 + 0.1 * (Real.exp (-10 * dt) - 1) ∧
    1 + 0.1 * (Real.exp (-10 * dt) - 1) ≤ 1 ∧
    (0 < dt → 1 + 0.1 * (Real.exp (-10 * dt) - 1) < 1) ∧
    1 - dt ≤ 1 + 0.1 * (Real.exp (-10 * dt) - 1) := by
  have hpos : 0 < Real.exp (-10 * dt) := Real.exp_pos _
  have hle : Real.exp (-10 * dt) ≤ 1 := Real.exp_le_one_iff.mpr (by linarith)
  have hlow : -10 * dt + 1 ≤ Real.exp (-10 * dt) := Real.add_one_le_exp _
  refine ⟨by linarith, by linarith, ?_, by linarith⟩
  intro h
  have hlt : Real.exp (-10 * dt) < 1 := Real.exp_lt_one_iff.mpr (by linarith)
  linarith

/-- The damping factor on the floor, `exp(-10 dt)`, is positive and at most
`1`; it is below `1` when `dt > 0`. -/
theorem floor_factor_bounds (dt : ℝ) (hdt : 0 ≤ dt) :
    0 < Real.exp (-10 * dt) ∧ Real.exp (-10 * dt) ≤ 1 ∧
    (0 < dt → Real.exp (-10 * dt) < 1) :=
  ⟨Real.exp_pos _, Real.exp_le_one_iff.mpr (by linarith),
    fun h => Real.exp_lt_one_iff.mpr (by linarith)⟩

/-- In free flight a sub-step multiplies the horizontal velocity components
by the damping factor of the grounded flag it starts with, and clears the
flag. -/
theorem subStep_free_factor (W : World ℝ) (hexp : W.exp = Real.exp)
    (hfree : ∀ c, W.capsuleIntersect c = none) (I : Frame ℝ) (dt : ℝ)
    (s : State ℝ) (hk : I.keyStates.noMovement = true) :
    (subStep W I dt s).playerVelocity.x
      = (if s.playerOnFloor then Real.exp (-10 * dt)
          else 1 + 0.1 * (Real.exp (-10 * dt) - 1)) * s.playerVelocity.x ∧
    (subStep W I dt s).playerVelocity.z
      = (if s.playerOnFloor then Real.exp (-10 * dt)
          else 1 + 0.1 * (Real.exp (-10 * dt) - 1)) * s.playerVelocity.z ∧
    (subStep W I dt s).playerOnFloor = false := by
  obtain ⟨hv, hf⟩ := subStep_free W I dt s hk (hfree _)
  rw [hv]
  refine ⟨?_, ?_, hf⟩ <;>
  · cases s.playerOnFloor <;>
    simp [specIntegratedVelocity, Vector3.multiplyScalar, Vector3.sub, hexp,
      mul_comm]

/-- C5, as amended: in free flight off the floor, a sub-step of length
`dt > 0` turns the vertical velocity `vy` into `(vy - 30 dt) * m` with
`m = 1 + 0.1 (exp(-10 dt) - 1)`; this is strictly smaller than `vy` exactly
when `vy` is above the terminal value `-(30 dt m / (1 - m))`, which holds
whenever `vy ≥ -27`, and a velocity above the terminal value stays above
it. -/
theorem gravity_vertical_velocity (W : World ℝ) (hexp : W.exp = Real.exp)
    (I : Frame ℝ) (dt : ℝ) (s : State ℝ)
    (hkeys : I.keyStates.noMovement = true) (hair : s.playerOnFloor = false)
    (hdt : 0 < dt)
    (hfree : W.capsuleIntersect (integratePlayer W dt s).playerCollider = none) :
    (subStep W I dt s).playerVelocity.y
      = (s.playerVelocity.y - 30 * dt) * (1 + 0.1 * (Real.exp (-10 * dt) - 1)) ∧
    ((subStep W I dt s).playerVelocity.y < s.playerVelocity.y ↔
      -(30 * dt * (1 + 0.1 * (Real.exp (-10 * dt) - 1))
          / (1 - (1 + 0.1 * (Real.exp (-10 * dt) - 1)))) < s.playerVelocity.y) ∧
    (-27 ≤ s.playerVelocity.y →
      (subStep W I dt s).playerVelocity.y < s.playerVelocity.y) ∧
    (-(30 * dt * (1 + 0.1 * (Real.exp (-10 * dt) - 1))
          / (1 - (1 + 0.1 * (Real.exp (-10 * dt) - 1)))) < s.playerVelocity.y →
      -(30 * dt * (1 + 0.1 * (Real.exp (-10 * dt) - 1))
          / (1 - (1 + 0.1 * (Real.exp (-10 * dt) - 1))))
        < (subStep W I dt s).playerVelocity.y) := by
  obtain ⟨hv, _⟩ := subStep_free W I dt s hkeys hfree
  have hy : (subStep W I dt s).playerVelocity.y
      = (s.playerVelocity.y - 30 * dt)
          * (1 + 0.1 * (Real.exp (-10 * dt) - 1)) := by
    rw [hv, hair]
    simp [specIntegratedVelocity, Vector3.multiplyScalar, Vector3.sub, hexp]
  obtain ⟨hm9, _, hm1, hmdt⟩ := air_factor_bounds dt hdt.le
  have hm1 := hm1 hdt
  generalize 1 + 0.1 * (Real.exp (-10 * dt) - 1) = m at hy hm9 hm1 hmdt ⊢
  generalize s.playerVelocity.y = vy at hy ⊢
  have hpos : 0 < 1 - m := by linarith
  have ht : 30 * dt * m / (1 - m) * (1 - m) = 30 * dt * m :=
    div_mul_cancel₀ _ hpos.ne.symm
  generalize 30 * dt * m / (1 - m) = t at ht ⊢
  rw [hy]
  refine ⟨rfl, ⟨fun h => ?_, fun h => ?_⟩, fun h => ?_, fun h => ?_⟩
  · nlinarith
  · nlinarith
  · nlinarith
  · nlinarith

/-- Witness of C5, as amended: the initial state, at rest in the empty
scene, with a sub-step of `0.01` seconds. -/
theorem gravity_vertical_velocity_witness :
    (subStep (emptyWorld Real.exp Real.sqrt) ⟨noKeys, ⟨0, 0, -1⟩, 0.05⟩ 0.01
        (initialState : State ℝ)).playerVelocity.y
      < (initialState : State ℝ).playerVelocity.y :=
  (gravity_vertical_velocity (emptyWorld Real.exp Real.sqrt)
    rfl ⟨noKeys, ⟨0, 0, -1⟩, 0.05⟩ 0.01 initialState rfl rfl (by norm_num)
    rfl).2.2.1 (by norm_num [initialState])

/-- C5 as stated fails: falling at `40` in the empty scene with nothing held,
a sub-step of `0.01` seconds leaves the player falling more slowly, so the
vertical velocity has grown. -/
theorem gravity_vertical_velocity_counterexample :
    ({ (initialState : State ℝ) with playerVelocity := ⟨0, -40, 0⟩ }).playerOnFloor
      = false ∧
    ({ (initialState : State ℝ) with playerVelocity := ⟨0, -40, 0⟩ }).playerVelocity.y
      < (subStep (emptyWorld Real.exp Real.sqrt) ⟨noKeys, ⟨0, 0, -1⟩, 0.05⟩ 0.01
          { (initialState : State ℝ) with
            playerVelocity := ⟨0, -40, 0⟩ }).playerVelocity.y := by
  refine ⟨rfl, ?_⟩
  obtain ⟨hv, _⟩ := subStep_free (emptyWorld Real.exp Real.sqrt)
    ⟨noKeys, ⟨0, 0, -1⟩, 0.05⟩ 0.01
    { (initialState : State ℝ) with playerVelocity := ⟨0, -40, 0⟩ } rfl rfl
  rw [hv]
  have hE : (10 * 0.01 : ℝ) + 1 ≤ Real.exp (10 * 0.01) := Real.add_one_le_exp _
  have he : Real.exp (-10 * 0.01) * Real.exp (10 * 0.01) = 1 := by
    rw [← Real.exp_add]
    norm_num
  have hpos : 0 < Real.exp (-10 * 0.01) := Real.exp_pos _
  have hle : Real.exp (-10 * 0.01) ≤ 10 / 11 := by nlinarith
  simp only [specIntegratedVelocity, initialState, emptyWorld,
    Vector3.multiplyScalar, Vector3.sub, Bool.false_eq_true, if_false]
  nlinarith

/-- In free flight a sub-step that starts off the floor multiplies the
horizontal velocity by the air factor and stays off the floor. -/
theorem subStep_air (W : World ℝ) (hexp : W.exp = Real.exp)
    (hfree : ∀ c, W.capsuleIntersect c = none) (I : Frame ℝ) (dt : ℝ)
    (s : State ℝ) (hk : I.keyStates.noMovement = true)
    (hair : s.playerOnFloor = false) :
    (subStep W I dt s).playerVelocity.x
      = s.playerVelocity.x * (1 + 0.1 * (Real.exp (-10 * dt) - 1)) ∧
    (subStep W I dt s).playerVelocity.z
      = s.playerVelocity.z * (1 + 0.1 * (Real.exp (-10 * dt) - 1)) ∧
    (subStep W I dt s).playerOnFloor = false := by
  obtain ⟨hx, hz, hf⟩ := subStep_free_factor W hexp hfree I dt s hk
  rw [hx, hz, hair]
  simp only [Bool.false_eq_true, if_false]
  exact ⟨mul_comm _ _, mul_comm _ _, hf⟩

/-- In free flight a sub-step of length `dt ≥ 0` does not increase the
absolute value of either horizontal velocity component. -/
theorem subStep_free_abs (W : World ℝ) (hexp : W.exp = Real.exp)
    (hfree : ∀ c, W.capsuleIntersect c = none) (I : Frame ℝ) (dt : ℝ)
    (s : State ℝ) (hk : I.keyStates.noMovement = true) (hdt : 0 ≤ dt) :
    |(subStep W I dt s).playerVelocity.x| ≤ |s.playerVelocity.x| ∧
    |(subStep W I dt s).playerVelocity.z| ≤ |s.playerVelocity.z| := by
  obtain ⟨hx, hz, _⟩ := subStep_free_factor W hexp hfree I dt s hk
  obtain ⟨a9, a1, _, _⟩ := air_factor_bounds dt hdt
  obtain ⟨f0, f1, _⟩ := floor_factor_bounds dt hdt
  have hk0 : 0 ≤ (if s.playerOnFloor then Real.exp (-10 * dt)
      else 1 + 0.1 * (Real.exp (-10 * dt) - 1)) := by
    split <;> linarith
  have hk1 : (if s.playerOnFloor then Real.exp (-10 * dt)
      else 1 + 0.1 * (Real.exp (-10 * dt) - 1)) ≤ 1 := by
    split <;> linarith
  rw [hx, hz, abs_mul, abs_mul, abs_of_nonneg hk0]
  exact ⟨mul_le_of_le_one_left (abs_nonneg _) hk1,
    mul_le_of_le_one_left (abs_nonneg _) hk1⟩

/-- In free flight a frame that starts off the floor multiplies the
horizontal velocity by the fifth power of the air factor of its sub-step
delta, and ends off the floor. -/
theorem animate_air (W : World ℝ) (hexp : W.exp = Real.exp)
    (hfree : ∀ c, W.capsuleIntersect c = none) (I : Frame ℝ) (s : State ℝ)
    (hk : I.keyStates.noMovement = true) (hair : s.playerOnFloor = false) :
    (animate W I s).playerVelocity.x
      = s.playerVelocity.x
          * (1 + 0.1 * (Real.exp (-10 * frameDeltaTime I.delta) - 1)) ^ 5 ∧
    (animate W I s).playerVelocity.z
      = s.playerVelocity.z
          * (1 + 0.1 * (Real.exp (-10 * frameDeltaTime I.delta) - 1)) ^ 5 ∧
    (animate W I s).playerOnFloor = false := by
  rw [animate_unfold]
  obtain ⟨x1, z1, f1⟩ := subStep_air W hexp hfree I (frameDeltaTime I.delta) s hk hair
  obtain ⟨x2, z2, f2⟩ := subStep_air W hexp hfree I (frameDeltaTime I.delta) _ hk f1
  obtain ⟨x3, z3, f3⟩ := subStep_air W hexp hfree I (frameDeltaTime I.delta) _ hk f2
  obtain ⟨x4, z4, f4⟩ := subStep_air W hexp hfree I (frameDeltaTime I.delta) _ hk f3
  obtain ⟨x5, z5, f5⟩ := subStep_air W hexp hfree I (frameDeltaTime I.delta) _ hk f4
  refine ⟨?_, ?_, f5⟩
  · rw [x5, x4, x3, x2, x1]
    ring
  · rw [z5, z4, z3, z2, z1]
    ring

/-- In free flight a frame of length `≥ 0` does not increase the absolute
value of either horizontal velocity component, and ends off the floor. -/
theorem animate_free_abs (W : World ℝ) (hexp : W.exp = Real.exp)
    (hfree : ∀ c, W.capsuleIntersect c = none) (I : Frame ℝ) (s : State ℝ)
    (hk : I.keyStates.noMovement = true) (hT : 0 ≤ I.delta) :
    |(animate W I s).playerVelocity.x| ≤ |s.playerVelocity.x| ∧
    |(animate W I s).playerVelocity.z| ≤ |s.playerVelocity.z| ∧
    (animate W I s).playerOnFloor = false := by
  rw [animate_unfold]
  have hdt := (frameDeltaTime_sign I.delta).1 hT
  have a1 := subStep_free_abs W hexp hfree I (frameDeltaTime I.delta) s hk hdt
  have a2 := subStep_free_abs W hexp hfree I (frameDeltaTime I.delta)
    (subStep W I (frameDeltaTime I.delta) s) hk hdt
  have a3 := subStep_free_abs W hexp hfree I (frameDeltaTime I.delta)
    (subStep W I (frameDeltaTime I.delta) (subStep W I (frameDeltaTime I.delta) s))
    hk hdt
  have a4 := subStep_free_abs W hexp hfree I (frameDeltaTime I.delta)
    (subStep W I (frameDeltaTime I.delta) (subStep W I (frameDeltaTime I.delta)
      (subStep W I (frameDeltaTime I.delta) s))) hk hdt
  have a5 := subStep_free_abs W hexp hfree I (frameDeltaTime I.delta)
    (subStep W I (frameDeltaTime I.delta) (subStep W I (frameDeltaTime I.delta)
      (subStep W I (frameDeltaTime I.delta) (subStep W I (frameDeltaTime I.delta) s))))
    hk hdt
  refine ⟨?_, ?_, (subStep_free_factor W hexp hfree I _ _ hk).2.2⟩
  · exact a5.1.trans (a4.1.trans (a3.1.trans (a2.1.trans a1.1)))
  · exact a5.2.trans (a4.2.trans (a3.2.trans (a2.2.trans a1.2)))

/-- In free flight, frames of one length `T` from a state off the floor
multiply the horizontal velocity by the fifth power of the air factor once
for each frame. -/
theorem run_air (W : World ℝ) (hexp : W.exp = Real.exp)
    (hfree : ∀ c, W.capsuleIntersect c = none) (T : ℝ) (frames : List (Frame ℝ))
    (hframes : ∀ I ∈ frames, I.delta = T ∧ I.keyStates.noMovement = true) :
    ∀ s : State ℝ, s.playerOnFloor = false →
      (run W frames s).playerVelocity.x
        = s.playerVelocity.x
            * ((1 + 0.1 * (Real.exp (-10 * frameDeltaTime T) - 1)) ^ 5)
              ^ frames.length ∧
      (run W frames s).playerVelocity.z
        = s.playerVelocity.z
            * ((1 + 0.1 * (Real.exp (-10 * frameDeltaTime T) - 1)) ^ 5)
              ^ frames.length := by
  induction frames with
  | nil => intro s _; simp [run]
  | cons I fs ih =>
    intro s hair
    obtain ⟨hI, hkI⟩ := hframes I (List.mem_cons_self _ _)
    obtain ⟨hx, hz, hf⟩ := animate_air W hexp hfree I s hkI hair
    obtain ⟨rx, rz⟩ := ih (fun J hJ => hframes J (List.mem_cons_of_mem _ hJ))
      (animate W I s) hf
    have hrun : run W (I :: fs) s = run W fs (animate W I s) := rfl
    rw [hrun, rx, rz, hx, hz, hI, List.length_cons, pow_succ]
    exact ⟨by ring, by ring⟩

/-- In free flight, over successive frames of one positive length the
horizontal velocity components tend to zero, whatever the grounded flag is at
the start. -/
theorem run_free_tendsto (W : World ℝ) (hexp : W.exp = Real.exp)
    (hfree : ∀ c, W.capsuleIntersect c = none) (frames : ℕ → Frame ℝ) (T : ℝ)
    (s : State ℝ) (hT : 0 < T)
    (hframes : ∀ n, (frames n).delta = T ∧ (frames n).keyStates.noMovement = true) :
    Filter.Tendsto
      (fun n => (run W ((List.range n).map frames) s).playerVelocity.x)
      Filter.atTop (nhds 0) ∧
    Filter.Tendsto
      (fun n => (run W ((List.range n).map frames) s).playerVelocity.z)
      Filter.atTop (nhds 0) := by
  obtain ⟨_, _, hm1, _⟩ := air_factor_bounds (frameDeltaTime T)
    ((frameDeltaTime_sign T).1 hT.le)
  obtain ⟨hm9, _, _, _⟩ := air_factor_bounds (frameDeltaTime T)
    ((frameDeltaTime_sign T).1 hT.le)
  have hm1 := hm1 ((frameDeltaTime_sign T).2 hT)
  have hq0 : 0 ≤ (1 + 0.1 * (Real.exp (-10 * frameDeltaTime T) - 1)) ^ 5 :=
    pow_nonneg (by linarith) 5
  have hq1 : (1 + 0.1 * (Real.exp (-10 * frameDeltaTime T) - 1)) ^ 5 < 1 :=
    pow_lt_one₀ (by linarith) hm1 (by norm_num)
  have hpow := tendsto_pow_atTop_nhds_zero_of_lt_one hq0 hq1
  have hf0 : (animate W (frames 0) s).playerOnFloor = false :=
    (animate_free_abs W hexp hfree (frames 0) s (hframes 0).2
      (by rw [(hframes 0).1]; exact hT.le)).2.2
  have hstep : ∀ n, run W ((List.range (n + 1)).map frames) s
      = run W ((List.range n).map (fun i => frames (i + 1)))
          (animate W (frames 0) s) := by
    intro n
    rw [List.range_succ_eq_map, List.map_cons, List.map_map]
    rfl
  have hlen : ∀ n, ((List.range n).map (fun i => frames (i + 1))).length = n := by
    intro n
    simp
  have hall : ∀ n, ∀ I ∈ (List.range n).map (fun i => frames (i + 1)),
      I.delta = T ∧ I.keyStates.noMovement = true := by
    intro n I hI
    obtain ⟨i, _, rfl⟩ := List.mem_map.mp hI
    exact hframes (i + 1)
  constructor
  · rw [← Filter.tendsto_add_atTop_iff_nat 1]
    have hx : ∀ n, (run W ((List.range (n + 1)).map frames) s).playerVelocity.x
        = (animate W (frames 0) s).playerVelocity.x
            * ((1 + 0.1 * (Real.exp (-10 * frameDeltaTime T) - 1)) ^ 5) ^ n := by
      intro n
      rw [hstep n, (run_air W hexp hfree T _ (hall n) _ hf0).1, hlen n]
    simp only [hx]
    simpa using hpow.const_mul (animate W (frames 0) s).playerVelocity.x
  · rw [← Filter.tendsto_add_atTop_iff_nat 1]
    have hz : ∀ n, (run W ((List.range (n + 1)).map frames) s).playerVelocity.z
        = (animate W (frames 0) s).playerVelocity.z
            * ((1 + 0.1 * (Real.exp (-10 * frameDeltaTime T) - 1)) ^ 5) ^ n := by
      intro n
      rw [hstep n, (run_air W hexp hfree T _ (hall n) _ hf0).2, hlen n]
    simp only [hz]
    simpa using hpow.const_mul (animate W (frames 0) s).playerVelocity.z

/-- C6: with no movement action held and no contact, (1) a sub-step of length
`dt > 0` multiplies the `x` and `z` velocity components by a factor strictly
between `0` and `1`: `exp(-10 dt)` when the grounded flag was set, otherwise
`1 + 0.1 (exp(-10 dt) - 1)`; (2) a frame that starts off the floor, with
clamped delta `T = min(0.05, delta)`, multiplies them by
`(1 + 0.1 (exp(-10 T / 5) - 1)) ^ 5`; (3) over a frame their absolute values,
and so the horizontal speed, never increase; (4) over successive frames of
one positive length they tend to zero. -/
theorem horizontal_damping_decay (W : World ℝ) (hexp : W.exp = Real.exp)
    (hfree : ∀ c, W.capsuleIntersect c = none) :
    (∀ (I : Frame ℝ) (dt : ℝ) (s : State ℝ),
      I.keyStates.noMovement = true → 0 < dt →
      ∃ k : ℝ,
        k = (if s.playerOnFloor then Real.exp (-10 * dt)
              else 1 + 0.1 * (Real.exp (-10 * dt) - 1)) ∧
        0 < k ∧ k < 1 ∧
        (subStep W I dt s).playerVelocity.x = k * s.playerVelocity.x ∧
        (subStep W I dt s).playerVelocity.z = k * s.playerVelocity.z) ∧
    (∀ (I : Frame ℝ) (s : State ℝ),
      I.keyStates.noMovement = true → s.playerOnFloor = false →
      (animate W I s).playerVelocity.x
        = s.playerVelocity.x
            * (1 + 0.1 * (Real.exp (-10 * (min 0.05 I.delta) / 5) - 1)) ^ 5 ∧
      (animate W I s).playerVelocity.z
        = s.playerVelocity.z
            * (1 + 0.1 * (Real.exp (-10 * (min 0.05 I.delta) / 5) - 1)) ^ 5) ∧
    (∀ (I : Frame ℝ) (s : State ℝ),
      I.keyStates.noMovement = true → 0 ≤ I.delta →
      |(animate W I s).playerVelocity.x| ≤ |s.playerVelocity.x| ∧
      |(animate W I s).playerVelocity.z| ≤ |s.playerVelocity.z| ∧
      (animate W I s).playerVelocity.x ^ 2 + (animate W I s).playerVelocity.z ^ 2
        ≤ s.playerVelocity.x ^ 2 + s.playerVelocity.z ^ 2) ∧
    (∀ (frames : ℕ → Frame ℝ) (T : ℝ) (s : State ℝ), 0 < T →
      (∀ n, (frames n).delta = T ∧ (frames n).keyStates.noMovement = true) →
      Filter.Tendsto
        (fun n => (run W ((List.range n).map frames) s).playerVelocity.x)
        Filter.atTop (nhds 0) ∧
      Filter.Tendsto
        (fun n => (run W ((List.range n).map frames) s).playerVelocity.z)
        Filter.atTop (nhds 0)) := by
  refine ⟨?_, ?_, ?_, ?_⟩
  · intro I dt s hk hdt
    obtain ⟨hx, hz, _⟩ := subStep_free_factor W hexp hfree I dt s hk
    obtain ⟨a9, _, a1, _⟩ := air_factor_bounds dt hdt.le
    obtain ⟨f0, _, f1⟩ := floor_factor_bounds dt hdt.le
    refine ⟨_, rfl, ?_, ?_, hx, hz⟩
    · split <;> linarith
    · split
      · exact f1 hdt
      · exact a1 hdt
  · intro I s hk hair
    obtain ⟨hx, hz, _⟩ := animate_air W hexp hfree I s hk hair
    have hd : -10 * frameDeltaTime I.delta = -10 * (min 0.05 I.delta) / 5 := by
      simp only [frameDeltaTime, STEPS_PER_FRAME]
      push_cast
      ring
    rw [hx, hz, hd]
    exact ⟨rfl, rfl⟩
  · intro I s hk hT
    obtain ⟨hx, hz, _⟩ := animate_free_abs W hexp hfree I s hk hT
    refine ⟨hx, hz, ?_⟩
    have h1 := sq_le_sq.mpr hx
    have h2 := sq_le_sq.mpr hz
    linarith
  · intro frames T s hT hframes
    exact run_free_tendsto W hexp hfree frames T s hT hframes

/-- Witness of C6: the empty scene, the initial capsule on the floor flag set
and moving at `(3, 0, 4)`, a sub-step of `0.01` seconds with nothing held. -/
theorem horizontal_damping_decay_witness :
    ∃ k : ℝ, k = Real.exp (-10 * 0.01) ∧ 0 < k ∧ k < 1 ∧
      (subStep (emptyWorld Real.exp Real.sqrt) ⟨noKeys, ⟨0, 0, -1⟩, 0.05⟩ 0.01
        { (initialState : State ℝ) with
          playerVelocity := ⟨3, 0, 4⟩, playerOnFloor := true }).playerVelocity.x
        = k * 3 := by
  obtain ⟨k, hk, h0, h1, hx, _⟩ :=
    (horizontal_damping_decay (emptyWorld Real.exp Real.sqrt) rfl
      (fun _ => rfl)).1 ⟨noKeys, ⟨0, 0, -1⟩, 0.05⟩ 0.01
      { (initialState : State ℝ) with
        playerVelocity := ⟨3, 0, 4⟩, playerOnFloor := true } rfl (by norm_num)
  exact ⟨k, hk, h0, h1, hx⟩

end Decay

end AveBlanca
